import Mathlib

/-!
Verification of the typst-to-latex math converter application
(a small desktop tool that pipes Typst math through pandoc, cleans the
resulting LaTeX string, and renders it to a bitmap preview).

The development shallowly embeds the program's logic:
strings are lists of characters, the pandoc subprocess and the two
rendering libraries (formula-to-SVG, SVG parsing/rasterizing) are
oracles supplied in an environment record, and the per-frame UI update
is a step function on the application state driven by events.
-/

namespace T2L

/-- Text is modelled as a list of characters (Rust str / String). -/
abbrev Str := List Char

/-- A pixel byte (Rust u8). -/
abbrev Byte := Fin 256

/-- Characters with the Unicode White_Space property, the set removed by
Rust's str::trim. -/
def isRustWhitespace (c : Char) : Bool :=
  c = ' ' || c = '\t' || c = '\n' || c = '\r' ||
  c.val = 0x0b || c.val = 0x0c || c.val = 0x85 || c.val = 0xa0 ||
  c.val = 0x1680 || (0x2000 ≤ c.val && c.val ≤ 0x200a) ||
  c.val = 0x2028 || c.val = 0x2029 || c.val = 0x202f ||
  c.val = 0x205f || c.val = 0x3000

/-- Rust str::trim: remove leading and trailing whitespace. -/
def rustTrim (s : Str) : Str :=
  ((s.dropWhile isRustWhitespace).reverse.dropWhile isRustWhitespace).reverse

/-- Fuel-driven worker for Rust str::trim_start_matches: repeatedly remove
the pattern p from the front of the string while it is a prefix.  The fuel
only needs to exceed the number of removals; by `rustTrimStartMatches` it is
instantiated with the length of the string, which always suffices. -/
def trimStartAux (p : Str) : Nat → Str → Str
  | 0, s => s
  | fuel + 1, s =>
    if !p.isEmpty && p.isPrefixOf s then trimStartAux p fuel (s.drop p.length)
    else s

/-- Rust str::trim_start_matches: repeatedly remove all occurrences of the
pattern from the front. -/
def rustTrimStartMatches (p s : Str) : Str :=
  trimStartAux p s.length s

/-- Rust str::trim_end_matches: repeatedly remove all occurrences of the
pattern from the end. -/
def rustTrimEndMatches (p s : Str) : Str :=
  (rustTrimStartMatches p.reverse s.reverse).reverse

/-- Rust str::split_once(":"): split around the first colon, returning the
parts before and after it, or none if there is no colon. -/
def splitOnceColon : Str → Option (Str × Str)
  | [] => none
  | c :: rest =>
    if c = ':' then some ([], rest)
    else (splitOnceColon rest).map fun ab => (c :: ab.1, ab.2)

/-- The LaTeX display-math opening delimiter emitted by pandoc. -/
def lBracket : Str := ['\\', '[']

/-- The LaTeX display-math closing delimiter emitted by pandoc. -/
def rBracket : Str := ['\\', ']']

/-- Outcome of running the pandoc subprocess, as observed by
convert_typst_to_latex: each early-exit failure of the Rust code
(spawn, stdin handle, stdin write, wait) or a completed run with an exit
status and the captured stdout and stderr text. -/
inductive ProcResult where
  | spawnFail
  | stdinOpenFail
  | stdinWriteFail
  | waitFail
  | completed (success : Bool) (stdout stderr : Str)
deriving DecidableEq

/-- The payload written to pandoc's stdin: the raw input wrapped in dollar
delimiters on their own lines, so pandoc treats it as math. -/
def mathDelimWrap (input : Str) : Str :=
  '$' :: '\n' :: (input ++ ['\n', '$'])

/-- convert_typst_to_latex's processing of the subprocess outcome.
On success: trim stdout, strip leading occurrences of the opening
display-math delimiter and trailing occurrences of the closing one, trim
again.  On failure: drop everything up to and including the first colon of
stderr (keeping all of stderr when it has no colon) and trim. -/
def convert_typst_to_latex : ProcResult → Except Str Str
  | .spawnFail => .error "Failed to execute pandoc. Do you have it installed?".data
  | .stdinOpenFail => .error "Failed to open stdin".data
  | .stdinWriteFail => .error "Failed to write to stdin".data
  | .waitFail => .error "Failed to read stdout and stderr".data
  | .completed true stdout _ =>
    .ok (rustTrim (rustTrimEndMatches rBracket
          (rustTrimStartMatches lBracket (rustTrim stdout))))
  | .completed false _ stderr =>
    .error (rustTrim ((splitOnceColon stderr).getD (([], stderr)) |>.2))

/-- Inversion of a single color byte: value to 255 - value. -/
def invByte (b : Byte) : Byte := ⟨255 - b.val, by omega⟩

/-- invert_pixmap_color: walk the RGBA byte buffer in chunks of four bytes
and invert the red, green and blue bytes of each complete chunk in place,
leaving the alpha byte (and any trailing incomplete chunk) untouched. -/
def invert_pixmap_color : List Byte → List Byte
  | r :: g :: b :: a :: rest =>
    invByte r :: invByte g :: invByte b :: a :: invert_pixmap_color rest
  | rest => rest

/-- The alpha bytes of an RGBA buffer: every fourth byte of each complete
four-byte chunk. -/
def alphaBytes : List Byte → List Byte
  | _ :: _ :: _ :: a :: rest => a :: alphaBytes rest
  | _ => []

/-- A parsed SVG scene (usvg::Tree), reduced to its natural size.  The f32
dimensions are modelled as exact rationals. -/
structure Tree where
  width : ℚ
  height : ℚ
deriving DecidableEq

/-- Idealization of the Rust f32-to-u32 cast on a rational stand-in for
the float: truncation toward zero with negative values saturating to zero
(for a nonnegative rational this is the floor).  The saturation of the
real cast at the top of the u32 range is not modelled, and the rational
argument carries none of the f32 rounding of the product it stands for. -/
def f32AsU32 (q : ℚ) : Nat := (⌊q⌋).toNat

/-- A pixel buffer (tiny_skia::Pixmap): width, height and the RGBA bytes. -/
structure Pixmap where
  width : Nat
  height : Nat
  data : List Byte
deriving DecidableEq

/-- Simplified model of tiny_skia::Pixmap::new: fails when either
dimension is zero, otherwise allocates a zero-filled RGBA buffer of
exactly width * height pixels.  The external crate's further failure when
the requested byte length overflows is not modelled. -/
def Pixmap.new (w h : Nat) : Option Pixmap :=
  if w = 0 || h = 0 then none
  else some ⟨w, h, List.replicate (w * h * 4) ⟨0, by omega⟩⟩

/-- The GPU texture handed to the UI (egui::TextureHandle): its debug name,
pixel dimensions, the dark-mode flag in force when it was rendered, and its
pixel data. -/
structure Texture where
  name : String
  width : Nat
  height : Nat
  darkMode : Bool
  data : List Byte
deriving DecidableEq

/-- The fixed magnification factor applied to the scene's natural size. -/
def renderScale : ℚ := 5

/-- svg_to_texture: parse the SVG (oracle parse), compute pixel dimensions
by truncating 5.0 times the scene's natural width and height, allocate the
pixmap (failing when a dimension is zero), let resvg render into the buffer
(oracle renderPix, at scale 5.0 * 0.9), invert the colors when dark mode is
active, and wrap the pixels as a texture named latex_svg.  The f32 product
is idealized as exact rational arithmetic: the rounding the program
performs before truncating is not modelled, so the computed dimensions are
trusted only where the claims treat them abstractly. -/
def svg_to_texture (dark : Bool) (parse : Str → Option Tree)
    (renderPix : Tree → Nat → Nat → List Byte) (svg : Str) :
    Except String Texture :=
  match parse svg with
  | none => .error "SVG parse error"
  | some tree =>
    let width := f32AsU32 (tree.width * renderScale)
    let height := f32AsU32 (tree.height * renderScale)
    match Pixmap.new width height with
    | none => .error "Failed to create pixmap"
    | some pm =>
      let pm : Pixmap := { pm with data := renderPix tree width height }
      let pm : Pixmap :=
        if dark then { pm with data := invert_pixmap_color pm.data } else pm
      .ok { name := "latex_svg", width := width, height := height,
            darkMode := dark, data := pm.data }

/-- The external-world oracles the update loop consults: the current theme,
the pandoc subprocess (applied to the payload written to its stdin), the
formula-to-SVG library (mathjax_svg::convert_to_svg), the SVG parser
(usvg::Tree::from_str) and the rasterizer's pixel output (resvg::render). -/
structure Env where
  dark : Bool
  conv : Str → ProcResult
  mjx : Str → Option Str
  parse : Str → Option Tree
  renderPix : Tree → Nat → Nat → List Byte

/-- The application state MyApp: the Typst input text, the LaTeX output
text, the optional cached texture, whether a clipboard context is
available, and the copy-button enablement flag. -/
structure MyApp where
  input : Str
  output : Str
  texture : Option Texture
  clipboard : Bool
  copy_enabled : Bool
deriving DecidableEq

/-- MyApp::new: empty texts, no texture, copy disabled; the clipboard
context may or may not be available. -/
def MyApp.new (clipboardOk : Bool) : MyApp :=
  ⟨[], [], none, clipboardOk, false⟩

/-- The render sub-pipeline's outcome on a given output text: feed it to
the formula-to-SVG library, then to svg_to_texture; none when any stage
fails. -/
def renderAttempt (env : Env) (out : Str) : Option Texture :=
  match env.mjx out with
  | none => none
  | some svg =>
    match svg_to_texture env.dark env.parse env.renderPix svg with
    | .ok tex => some tex
    | .error _ => none

/-- The output_to_texture closure of MyApp::update: do nothing when the
output text starts with Error or is empty; otherwise run the conversion and
rasterization chain and, only on success of every stage, store the texture
and enable the copy button. -/
def output_to_texture (env : Env) (s : MyApp) : MyApp :=
  if "Error".data.isPrefixOf s.output || s.output.isEmpty then s
  else
    match env.mjx s.output with
    | some svg =>
      match svg_to_texture env.dark env.parse env.renderPix svg with
      | .ok tex => { s with texture := some tex, copy_enabled := true }
      | .error _ => s
    | none => s

/-- The user interactions one frame of MyApp::update can observe: an edit
of the input field, an edit of the output field, a click on Clear, a click
on Copy, or a frame with no interaction. -/
inductive Event where
  | editInput (new : Str)
  | editOutput (new : Str)
  | clickClear
  | clickCopy
  | frame

/-- One frame of MyApp::update.  An input edit clears the texture and copy
flag, runs pandoc on the wrapped new input, stores the cleaned result (or
the Error-prefixed message) as output, and on success runs
output_to_texture.  An output edit clears the texture and copy flag and
runs output_to_texture.  Clear empties both texts and clears texture and
flag.  Copy only touches the clipboard.  A frame without interaction
changes nothing. -/
def step (env : Env) (ev : Event) (s : MyApp) : MyApp :=
  match ev with
  | .editInput new =>
    let s := { s with input := new, texture := none, copy_enabled := false }
    match convert_typst_to_latex (env.conv (mathDelimWrap new)) with
    | .ok result => output_to_texture env { s with output := result }
    | .error err => { s with output := "Error: ".data ++ err }
  | .editOutput new =>
    output_to_texture env
      { s with output := new, texture := none, copy_enabled := false }
  | .clickClear =>
    { s with input := [], output := [], texture := none,
             copy_enabled := false }
  | .clickCopy => s
  | .frame => s

/-- The states reachable from a fresh MyApp by any sequence of events,
under arbitrary external-world behavior at each step. -/
inductive Reachable : MyApp → Prop where
  | init (clipboardOk : Bool) : Reachable (MyApp.new clipboardOk)
  | next (env : Env) (ev : Event) {s : MyApp} :
      Reachable s → Reachable (step env ev s)

/-- Fuel-driven count of how many copies of the pattern p sit back-to-back
at the front of the string (the number of removals str::trim_start_matches
performs). -/
def leadCopiesAux (p : Str) : Nat → Str → Nat
  | 0, _ => 0
  | fuel + 1, s =>
    if !p.isEmpty && p.isPrefixOf s then
      leadCopiesAux p fuel (s.drop p.length) + 1
    else 0

/-- Number of back-to-back copies of p at the front of s. -/
def leadCopies (p s : Str) : Nat :=
  leadCopiesAux p s.length s

/-- The error-message cleaning described by the specification: remove
everything up to and including the first colon and trim; when there is no
colon, trim the whole error text. -/
def specErrMsg (e : Str) : Str :=
  if e.any (fun c => c == ':') then
    rustTrim ((e.dropWhile (fun c => !(c == ':'))).drop 1)
  else rustTrim e

/-- The success-output cleaning in the form stated by the amended claim:
after the first trim, drop as many back-to-back copies of the opening
delimiter as sit at the front, then (independently) drop as many
back-to-back copies of the closing delimiter as sit at the end, then trim
again. -/
def specCleanSuccess (stdout : Str) : Str :=
  let t := rustTrim stdout
  let t1 := t.drop (lBracket.length * leadCopies lBracket t)
  rustTrim
    (t1.take (t1.length - rBracket.length * leadCopies rBracket.reverse t1.reverse))

/-- The success-output cleaning in the form the original claim states it:
remove exactly one leading opening delimiter and one trailing closing
delimiter when both are present, and nothing otherwise. -/
def stripOnePairIfPresent (s : Str) : Str :=
  if lBracket.isPrefixOf s && rBracket.isSuffixOf s then
    (s.drop lBracket.length).take
      (s.length - lBracket.length - rBracket.length)
  else s

/-- A world where pandoc succeeds with nested display-math delimiters
separated by a space, and rendering always fails. -/
def envNested : Env :=
  ⟨false, fun _ => .completed true " \\[ \\[x".data [],
   fun _ => none, fun _ => none, fun _ _ _ => []⟩

/-- A world where pandoc fails with a prefixed error message, and rendering
always fails. -/
def envErr : Env :=
  ⟨false, fun _ => .completed false [] "x:  boom ".data,
   fun _ => none, fun _ => none, fun _ _ _ => []⟩

/-- A world where pandoc cannot be spawned and rendering always fails. -/
def envDown : Env :=
  ⟨false, fun _ => .spawnFail, fun _ => none, fun _ => none, fun _ _ _ => []⟩

/-- An SVG parser oracle producing a scene of natural size 1 x 1. -/
def parseUnit : Str → Option Tree := fun _ => some ⟨1, 1⟩

/-- A rasterizer oracle that paints nothing. -/
def paintNothing : Tree → Nat → Nat → List Byte := fun _ _ _ => []

theorem trimStartAux_eq_drop (p : Str) :
    ∀ (fuel : Nat) (s : Str),
      trimStartAux p fuel s = s.drop (p.length * leadCopiesAux p fuel s) := by
  intro fuel
  induction fuel with
  | zero => intro s; simp [trimStartAux, leadCopiesAux]
  | succ f ih =>
    intro s
    by_cases h : (!p.isEmpty && p.isPrefixOf s) = true
    · simp only [trimStartAux, leadCopiesAux, h, if_pos]
      rw [ih, List.drop_drop, Nat.mul_succ, Nat.add_comm]
    · simp only [trimStartAux, leadCopiesAux, h]
      simp

theorem rustTrimStartMatches_eq_drop (p s : Str) :
    rustTrimStartMatches p s = s.drop (p.length * leadCopies p s) :=
  trimStartAux_eq_drop p s.length s

theorem rustTrimEndMatches_eq_take (p s : Str) :
    rustTrimEndMatches p s =
      s.take (s.length - p.length * leadCopies p.reverse s.reverse) := by
  unfold rustTrimEndMatches
  rw [rustTrimStartMatches_eq_drop, List.reverse_drop]
  simp

theorem trimStartAux_not_isPrefixOf (p : Str) (hp : p ≠ []) :
    ∀ (fuel : Nat) (s : Str), s.length ≤ fuel →
      p.isPrefixOf (trimStartAux p fuel s) = false := by
  intro fuel
  induction fuel with
  | zero =>
    intro s hs
    have hnil : s = [] := by
      cases s with
      | nil => rfl
      | cons a l => simp at hs
    subst hnil
    cases p with
    | nil => exact absurd rfl hp
    | cons a l => simp [trimStartAux, List.isPrefixOf]
  | succ f ih =>
    intro s hs
    by_cases h : (!p.isEmpty && p.isPrefixOf s) = true
    · simp only [trimStartAux, h, if_pos]
      apply ih
      have hpre : p <+: s := by
        have := (Bool.and_eq_true _ _).mp h
        exact List.isPrefixOf_iff_prefix.mp this.2
      have hple := hpre.length_le
      have hppos : 0 < p.length := List.length_pos.mpr hp
      simp only [List.length_drop]
      omega
    · simp only [trimStartAux, h]
      simp only [Bool.and_eq_true, Bool.not_eq_true', not_and] at h
      have hne : p.isEmpty = false := by
        cases p with
        | nil => exact absurd rfl hp
        | cons a l => rfl
      exact Bool.eq_false_iff.mpr fun hc => by simp [hne] at h; simp [h] at hc


theorem rustTrimStartMatches_not_isPrefixOf (p s : Str) (hp : p ≠ []) :
    p.isPrefixOf (rustTrimStartMatches p s) = false :=
  trimStartAux_not_isPrefixOf p hp s.length s le_rfl

theorem isPrefixOf_of_take (p t : Str) (n : Nat)
    (h : p.isPrefixOf (t.take n) = true) : p.isPrefixOf t = true := by
  rw [ List.isPrefixOf_iff_prefix] at h ⊢
  exact ( List.prefix_take_iff.mp h).1

theorem rustTrimEndMatches_not_isSuffixOf (p s : Str) (hp : p ≠ []) :
    p.isSuffixOf (rustTrimEndMatches p s) = false := by
  show p.reverse.isPrefixOf (rustTrimEndMatches p s).reverse = false
  unfold rustTrimEndMatches
  rw [List.reverse_reverse]
  apply rustTrimStartMatches_not_isPrefixOf
  simp [hp]

theorem rustTrimEndMatches_keeps_not_isPrefixOf (p q s : Str)
    (h : p.isPrefixOf s = false) :
    p.isPrefixOf (rustTrimEndMatches q s) = false := by
  rw [rustTrimEndMatches_eq_take]
  exact Bool.eq_false_iff.mpr fun hc =>
    Bool.eq_false_iff.mp h (isPrefixOf_of_take p s _ hc)

theorem splitOnceColon_eq_none (e : Str) :
    splitOnceColon e = none ↔ e.any (fun c => c == ':') = false := by
  induction e with
  | nil => simp [splitOnceColon]
  | cons c rest ih =>
    by_cases hc : c = ':'
    · simp [splitOnceColon, hc]
    · simp [splitOnceColon, hc, Option.map_eq_none, ih]

theorem splitOnceColon_snd (e : Str) :
    ∀ ab, splitOnceColon e = some ab →
      ab.2 = (e.dropWhile (fun c => !(c == ':'))).drop 1 := by
  induction e with
  | nil => intro ab h; simp [splitOnceColon] at h
  | cons c rest ih =>
    intro ab h
    by_cases hc : c = ':'
    · simp [splitOnceColon, hc] at h
      simp [List.dropWhile, hc, ← h]
    · simp only [splitOnceColon, if_neg hc, Option.map_eq_some'] at h
      obtain ⟨ab', hab', heq⟩ := h
      have h2 : ab.2 = ab'.2 := by rw [← heq]
      rw [h2, ih ab' hab']
      simp only [List.dropWhile_cons]
      simp [hc]

theorem convert_error_eq_spec (stdout stderr : Str) :
    convert_typst_to_latex (.completed false stdout stderr) =
      .error (specErrMsg stderr) := by
  simp only [convert_typst_to_latex, specErrMsg]
  cases h : splitOnceColon stderr with
  | none =>
    have hany := (splitOnceColon_eq_none stderr).mp h
    simp [h, hany]
  | some ab =>
    have hany : stderr.any (fun c => c == ':') = true := by
      by_contra hcon
      have := (splitOnceColon_eq_none stderr).mpr (Bool.eq_false_iff.mpr hcon)
      rw [this] at h
      cases h
    simp [h, hany, splitOnceColon_snd stderr ab h]

example : convert_typst_to_latex (.completed true "\\[\\[x\\]\\]".data []) =
    .ok "x".data := by rfl

example : convert_typst_to_latex (.completed false [] "3:12: err msg ".data) =
    .error "12: err msg".data := by rfl

example : convert_typst_to_latex (.completed false [] "  plain failure ".data) =
    .error "plain failure".data := by rfl

/-- C2 (counterexample): on converter stdout consisting of two nested
delimiter pairs, the code removes both pairs, not exactly one as the claim
states: the code yields the bare x where the claimed cleaning yields x
still wrapped in one delimiter pair. -/
theorem convert_one_pair_counterexample :
    convert_typst_to_latex (.completed true "\\[\\[x\\]\\]".data []) =
      .ok "x".data ∧
    rustTrim (stripOnePairIfPresent (rustTrim "\\[\\[x\\]\\]".data)) =
      "\\[x\\]".data ∧
    "x".data ≠ "\\[x\\]".data := by
  refine ⟨by rfl, by rfl, by decide⟩

/-- C2 (amended): on exit code zero, convert_typst_to_latex returns the
subprocess stdout whitespace-trimmed, then with every back-to-back leading
occurrence of the opening delimiter removed and, independently, every
back-to-back trailing occurrence of the closing delimiter removed (not one
pair, and not requiring both sides to be present), then trimmed again. -/
theorem convert_success_strips_all_delims (stdout stderr : Str) :
    convert_typst_to_latex (.completed true stdout stderr) =
      .ok (specCleanSuccess stdout) := by
  simp only [convert_typst_to_latex, specCleanSuccess]
  rw [rustTrimStartMatches_eq_drop, rustTrimEndMatches_eq_take]

/-- C3 (counterexample): with non-empty input and a converter stdout whose
repeated opening delimiters are separated by whitespace, the stored Output
Text after a successful conversion does start with the opening display-math
delimiter, contradicting the claim. -/
theorem output_text_delim_counterexample :
    "a".data ≠ [] ∧
    (step envNested (.editInput "a".data) (MyApp.new true)).output =
      "\\[x".data ∧
    lBracket.isPrefixOf
      (step envNested (.editInput "a".data) (MyApp.new true)).output = true := by
  refine ⟨by decide, by rfl, by rfl⟩

/-- C3 (amended): on exit code zero the intermediate string, after the
delimiter stripping but before the final whitespace trim, neither starts
with the opening delimiter nor ends with the closing one (and the stored
Output Text is that string whitespace-trimmed; the final trim can re-expose
a delimiter only when whitespace separated repeated delimiters). -/
theorem convert_success_no_delim_before_final_trim (stdout stderr : Str) :
    convert_typst_to_latex (.completed true stdout stderr) =
      .ok (rustTrim (rustTrimEndMatches rBracket
            (rustTrimStartMatches lBracket (rustTrim stdout)))) ∧
    lBracket.isPrefixOf (rustTrimEndMatches rBracket
      (rustTrimStartMatches lBracket (rustTrim stdout))) = false ∧
    rBracket.isSuffixOf (rustTrimEndMatches rBracket
      (rustTrimStartMatches lBracket (rustTrim stdout))) = false := by
  refine ⟨rfl, ?_, ?_⟩
  · exact rustTrimEndMatches_keeps_not_isPrefixOf _ _ _
      (rustTrimStartMatches_not_isPrefixOf lBracket _ (by decide))
  · exact rustTrimEndMatches_not_isSuffixOf rBracket _ (by decide)

/-- C4: whenever the converter subprocess exits non-zero, the Output Text
stored by the input-edit handler is the Error: prefix followed by the
standard-error text with everything up to and including its first colon
removed and the remainder trimmed (the whole text trimmed when there is no
colon). -/
theorem error_output_matches_spec (env : Env) (s : MyApp)
    (inp stdout stderr : Str)
    (h : env.conv (mathDelimWrap inp) = .completed false stdout stderr) :
    (step env (.editInput inp) s).output = "Error: ".data ++ specErrMsg stderr := by
  simp only [step, h, convert_error_eq_spec]

/-- C4 (witness): a concrete run where pandoc fails with the message
x:  boom ; the stored output text is Error: boom. -/
theorem error_output_matches_spec_witness :
    envErr.conv (mathDelimWrap "a".data) = .completed false [] "x:  boom ".data ∧
    (step envErr (.editInput "a".data) (MyApp.new true)).output =
      "Error: ".data ++ specErrMsg "x:  boom ".data ∧
    specErrMsg "x:  boom ".data = "boom".data :=
  ⟨rfl,
   error_output_matches_spec envErr (MyApp.new true) "a".data []
     "x:  boom ".data rfl,
   by rfl⟩

theorem output_to_texture_sync (env : Env) (s : MyApp)
    (h1 : s.texture = none) (h2 : s.copy_enabled = false) :
    ((output_to_texture env s).copy_enabled = true ↔
      (output_to_texture env s).texture.isSome = true) := by
  unfold output_to_texture
  split
  · simp [h1, h2]
  · cases henv : env.mjx s.output with
    | none => simp [henv, h1, h2]
    | some svg =>
      cases hsvg : svg_to_texture env.dark env.parse env.renderPix svg with
      | ok tex => simp [henv, hsvg]
      | error e => simp [henv, hsvg, h1, h2]

/-- C1: in every state reachable by any sequence of events under any
external-world behavior, the copy-button flag is set exactly when a
rendered texture is present. -/
theorem copy_enabled_iff_texture_present (s : MyApp) (h : Reachable s) :
    (s.copy_enabled = true ↔ s.texture.isSome = true) := by
  induction h with
  | init cb => simp [MyApp.new]
  | next env ev hr ih =>
    cases ev with
    | editInput new =>
      simp only [step]
      cases hc : convert_typst_to_latex (env.conv (mathDelimWrap new)) with
      | ok result => exact output_to_texture_sync env _ rfl rfl
      | error err => simp
    | editOutput new => exact output_to_texture_sync env _ rfl rfl
    | clickClear => simp [step]
    | clickCopy => exact ih
    | frame => exact ih

/-- C1 (witness): the invariant instantiated at a concrete reachable state,
obtained by one output edit that renders successfully. -/
theorem copy_enabled_iff_texture_present_witness :
    ((step envDown (.editOutput "x".data) (MyApp.new true)).copy_enabled = true ↔
      (step envDown (.editOutput "x".data) (MyApp.new true)).texture.isSome = true) :=
  copy_enabled_iff_texture_present _
    (Reachable.next envDown (.editOutput "x".data) (Reachable.init true))

theorem output_to_texture_eq (env : Env) (s : MyApp) :
    output_to_texture env s =
      if "Error".data.isPrefixOf s.output || s.output.isEmpty then s
      else
        match renderAttempt env s.output with
        | some tex => { s with texture := some tex, copy_enabled := true }
        | none => s := by
  unfold output_to_texture renderAttempt
  split
  · rfl
  · cases henv : env.mjx s.output with
    | none => simp [henv]
    | some svg =>
      cases hsvg : svg_to_texture env.dark env.parse env.renderPix svg with
      | ok tex => simp [henv, hsvg]
      | error e => simp [henv, hsvg]

theorem output_to_texture_of_renderAttempt_none (env : Env) (t : MyApp)
    (h : renderAttempt env t.output = none) : output_to_texture env t = t := by
  rw [output_to_texture_eq]
  split
  · rfl
  · rw [h]

/-- C5: whenever the render sub-pipeline runs and any stage fails (no SVG,
no parsed scene, or no pixmap), the output-edit step leaves the texture
absent and the copy flag false with the edited Output Text untouched, and,
in general, a failing sub-pipeline run returns the state it was given (in
particular it never rewrites Output Text). -/
theorem render_failure_leaves_state (env : Env) (s : MyApp) (new : Str)
    (h : renderAttempt env new = none) :
    step env (.editOutput new) s =
      { s with output := new, texture := none, copy_enabled := false } ∧
    ∀ t : MyApp, renderAttempt env t.output = none →
      output_to_texture env t = t := by
  refine ⟨?_, fun t ht => output_to_texture_of_renderAttempt_none env t ht⟩
  show output_to_texture env
      { s with output := new, texture := none, copy_enabled := false } = _
  exact output_to_texture_of_renderAttempt_none env _ h

/-- C5 (witness): a concrete failing render after an output edit. -/
theorem render_failure_leaves_state_witness :
    renderAttempt envDown "x".data = none ∧
    step envDown (.editOutput "x".data) (MyApp.new true) =
      { (MyApp.new true) with
          output := ("x".data), texture := none, copy_enabled := false } :=
  ⟨rfl,
   (render_failure_leaves_state envDown (MyApp.new true) "x".data rfl).1⟩

/-- C6: the output-edit handler never consults the converter (its result is
the same under any subprocess behavior), first clears the texture and the
copy flag, and then: when the new Output Text is empty or starts with
Error it leaves the texture absent, and otherwise it attempts
rasterization of the new Output Text, storing the texture and enabling
copy exactly when every stage succeeds. -/
theorem output_edit_clears_then_renders (env : Env) (c : Str → ProcResult)
    (s : MyApp) (new : Str) :
    step { env with conv := c } (.editOutput new) s =
      step env (.editOutput new) s ∧
    step env (.editOutput new) s =
      (if "Error".data.isPrefixOf new || new.isEmpty then
        { s with output := new, texture := none, copy_enabled := false }
       else
        match renderAttempt env new with
        | some tex =>
          { s with output := new, texture := some tex, copy_enabled := true }
        | none =>
          { s with output := new, texture := none, copy_enabled := false }) := by
  refine ⟨rfl, ?_⟩
  show output_to_texture env
      { s with output := new, texture := none, copy_enabled := false } = _
  rw [output_to_texture_eq]

/-- C7: the Clear action always resets the two text fields to empty, drops
the texture and disables copy, keeping the clipboard handle, and its result
is independent of the external world (no converter or rasterizer call can
influence it). -/
theorem clear_resets_state (env env' : Env) (s : MyApp) :
    step env .clickClear s =
      { s with input := [], output := [], texture := none,
               copy_enabled := false } ∧
    step env .clickClear s = step env' .clickClear s :=
  ⟨rfl, rfl⟩

theorem invByte_invByte (b : Byte) : invByte (invByte b) = b := by
  have hb := b.isLt
  apply Fin.ext
  show 255 - (255 - b.val) = b.val
  omega

/-- C8: color inversion is an involution on the RGBA buffer: applying
invert_pixmap_color twice restores every byte (in particular every red,
green and blue byte returns from value through 255 - value to value), and a
single application leaves the alpha byte of every four-byte pixel
untouched. -/
theorem invert_pixmap_color_involutive (data : List Byte) :
    invert_pixmap_color (invert_pixmap_color data) = data ∧
    alphaBytes (invert_pixmap_color data) = alphaBytes data := by
  induction data using invert_pixmap_color.induct with
  | case1 r g b a rest ih =>
    simp only [invert_pixmap_color, alphaBytes, invByte_invByte, ih.1, ih.2,
      and_self]
  | case2 rest h =>
    cases rest with
    | nil => exact ⟨rfl, rfl⟩
    | cons r t1 =>
      cases t1 with
      | nil => exact ⟨rfl, rfl⟩
      | cons g t2 =>
        cases t2 with
        | nil => exact ⟨rfl, rfl⟩
        | cons b t3 =>
          cases t3 with
          | nil => exact ⟨rfl, rfl⟩
          | cons a t4 => exact absurd rfl (h r g b a t4)

/-- C9: a frame without any user interaction leaves the state, and in
particular the cached texture, exactly as it was, whatever the current
theme and external world are (a theme toggle alone never clears,
re-renders or re-inverts the bitmap); and every texture produced by
svg_to_texture records the dark-mode flag that was in force when it was
rendered. -/
theorem theme_toggle_keeps_texture (env : Env) (s : MyApp) :
    step env .frame s = s ∧
    ∀ (dark : Bool) (parse : Str → Option Tree)
      (renderPix : Tree → Nat → Nat → List Byte) (svg : Str) (tex : Texture),
      svg_to_texture dark parse renderPix svg = .ok tex →
      tex.darkMode = dark := by
  refine ⟨rfl, ?_⟩
  intro dark parse renderPix svg tex h
  unfold svg_to_texture at h
  cases hp : parse svg with
  | none => rw [hp] at h; cases h
  | some tree =>
    rw [hp] at h
    simp only at h
    cases hpm : Pixmap.new (f32AsU32 (tree.width * renderScale))
        (f32AsU32 (tree.height * renderScale)) with
    | none => rw [hpm] at h; cases h
    | some pm =>
      rw [hpm] at h
      simp only at h
      cases h
      rfl

/-- C9 (witness): a texture rendered in dark mode records the dark flag,
and a no-interaction frame in a light-mode world keeps a state as it is. -/
theorem theme_toggle_keeps_texture_witness :
    svg_to_texture true parseUnit paintNothing [] =
      .ok ⟨"latex_svg", 5, 5, true, []⟩ ∧
    Texture.darkMode ⟨"latex_svg", 5, 5, true, []⟩ = true ∧
    step envDown .frame (MyApp.new true) = MyApp.new true := by
  have h5 : (⌊renderScale⌋ : ℤ) = 5 := by norm_num [renderScale]
  have hdim : f32AsU32 renderScale = 5 := by simp [f32AsU32, h5]
  have hok : svg_to_texture true parseUnit paintNothing [] =
      .ok ⟨"latex_svg", 5, 5, true, []⟩ := by
    simp [svg_to_texture, parseUnit, hdim, Pixmap.new, paintNothing,
      invert_pixmap_color]
  refine ⟨hok, ?_, (theme_toggle_keeps_texture envDown (MyApp.new true)).1⟩
  exact (theme_toggle_keeps_texture envDown (MyApp.new true)).2 true parseUnit
    paintNothing [] ⟨"latex_svg", 5, 5, true, []⟩ hok

end T2L
